import Mathlib

/-!
Verification development for `src/mymodel/run_model.py` (class `Dan`), the
training / evaluation driver of the SEEG_Timing repository.

The Python file is host-side orchestration around external collaborators: the
`DAN` network, torch loss modules, numpy, pandas and the data loaders.  The
embedding below translates the driver's own control flow and arithmetic into
Lean, while the collaborators' outputs (model logits, per-batch losses,
validation accuracies, file contents) enter as explicit parameters ("oracle"
inputs).  Machine floats are modelled as rationals, filesystem state as finite
maps, and Python exceptions as `Except` values.
-/

namespace RunModel

/-- One checkpoint decision of `Dan.train` (run_model.py lines 253-257).
Given the tracked best validation accuracy `last` (`last_test_accuracy`,
initialised to 0 at line 165) and the fresh validation accuracy `acc`
(`test_accuracy_avg`): first, if `last == 1` it is reset to 0; then the model
is saved exactly when the (possibly reset) `last` is `<=` `acc`, in which case
the tracked best becomes `acc`.  Returns `(saved, new tracked best)`. -/
def checkpointStep (last acc : ℚ) : Bool × ℚ :=
  let l := if last = 1 then 0 else last
  if l ≤ acc then (true, acc) else (false, l)

/-- The sequence of save decisions `Dan.train` makes over a run whose
successive validation accuracies are `accs`, starting from tracked best
`last`. -/
def checkpointSaves (last : ℚ) : List ℚ → List Bool
  | [] => []
  | a :: rest =>
      (checkpointStep last a).1 :: checkpointSaves (checkpointStep last a).2 rest

theorem checkpointSaves_length (last : ℚ) (accs : List ℚ) :
    (checkpointSaves last accs).length = accs.length := by
  induction accs generalizing last with
  | nil => rfl
  | cons a rest ih => simp [checkpointSaves, ih]

theorem ite_best_le (last a x : ℚ) :
    ((if last ≤ a then a else last) ≤ x) ↔ (last ≤ x ∧ a ≤ x) := by
  by_cases h : last ≤ a
  · simp only [if_pos h]
    exact ⟨fun hax => ⟨le_trans h hax, hax⟩, fun q => q.2⟩
  · simp only [if_neg h]
    exact ⟨fun hlx => ⟨hlx, le_trans (le_of_lt (lt_of_not_le h)) hlx⟩, fun q => q.1⟩

theorem forall_lt_succ_cons (a x : ℚ) (rest : List ℚ) (i : ℕ) :
    (∀ j, j < i + 1 → (a :: rest).getD j 0 ≤ x) ↔
      (a ≤ x ∧ ∀ j, j < i → rest.getD j 0 ≤ x) := by
  constructor
  · intro h
    exact ⟨by simpa using h 0 (Nat.succ_pos _),
           fun j hj => by simpa using h (j + 1) (Nat.succ_lt_succ hj)⟩
  · rintro ⟨ha, h⟩ j hj
    cases j with
    | zero => simpa using ha
    | succ j => simpa using h j (Nat.lt_of_succ_lt_succ hj)

theorem checkpointSaves_getD (accs : List ℚ) (last : ℚ)
    (hl0 : 0 ≤ last) (hl1 : last < 1)
    (hb : ∀ a ∈ accs, 0 ≤ a ∧ a < 1) (i : ℕ) (hi : i < accs.length) :
    ((checkpointSaves last accs).getD i false = true) ↔
      (last ≤ accs.getD i 0 ∧ ∀ j, j < i → accs.getD j 0 ≤ accs.getD i 0) := by
  induction accs generalizing last i with
  | nil => simp at hi
  | cons a rest ih =>
    have ha : 0 ≤ a ∧ a < 1 := hb a (List.mem_cons_self a rest)
    have hstep : checkpointStep last a =
        if last ≤ a then (true, a) else (false, last) := by
      simp [checkpointStep, ne_of_lt hl1]
    cases i with
    | zero =>
      by_cases h : last ≤ a
      · simp [checkpointSaves, hstep, h]
      · simp [checkpointSaves, hstep, h]
    | succ i =>
      have hi' : i < rest.length := Nat.lt_of_succ_lt_succ hi
      have hrest : ∀ b ∈ rest, 0 ≤ b ∧ b < 1 :=
        fun b hbmem => hb b (List.mem_cons_of_mem a hbmem)
      have hbest0 : 0 ≤ (if last ≤ a then a else last) := by
        by_cases h : last ≤ a <;> simp [h, ha.1, hl0]
      have hbest1 : (if last ≤ a then a else last) < 1 := by
        by_cases h : last ≤ a <;> simp [h, ha.2, hl1]
      have hsnd : (checkpointStep last a).2 = if last ≤ a then a else last := by
        rw [hstep]; by_cases h : last ≤ a <;> simp [h]
      have lhs : (checkpointSaves last (a :: rest)).getD (i + 1) false =
          (checkpointSaves (if last ≤ a then a else last) rest).getD i false := by
        simp [checkpointSaves, hsnd]
      rw [lhs, ih (if last ≤ a then a else last) hbest0 hbest1 hrest i hi']
      rw [forall_lt_succ_cons, ite_best_le]
      simp only [List.getD_cons_succ]
      tauto

/-- C1 counterexample: with validation accuracies `[1, 1/2]` the tracked best
is reset from 1 to 0 before the second comparison (run_model.py lines
253-254), so the model is saved at the second validation point even though its
accuracy 1/2 is strictly below the earlier accuracy 1.  The claim as stated
(save iff the accuracy is ≥ every earlier one) is therefore false. -/
theorem train_checkpoint_policy_counterexample :
    (checkpointSaves 0 [1, 1/2]).getD 1 false = true ∧
      ¬ (([(1 : ℚ), 1/2]).getD 0 0 ≤ ([(1 : ℚ), 1/2]).getD 1 0) := by
  constructor
  · norm_num [checkpointSaves, checkpointStep]
  · norm_num

/-- C1 (amended): as long as every validation accuracy stays in `[0, 1)` —
so the reset of `last_test_accuracy` at value 1 (lines 253-254) never fires —
`Dan.train` saves the checkpoint at a validation point if and only if the
current validation accuracy is greater than or equal to every validation
accuracy observed earlier in the run. -/
theorem train_checkpoint_policy (accs : List ℚ)
    (hb : ∀ a ∈ accs, 0 ≤ a ∧ a < 1) (i : ℕ) (hi : i < accs.length) :
    ((checkpointSaves 0 accs).getD i false = true) ↔
      (∀ j, j < i → accs.getD j 0 ≤ accs.getD i 0) := by
  rw [checkpointSaves_getD accs 0 le_rfl one_pos hb i hi]
  have hmem : accs.getD i 0 ∈ accs := by
    have h := List.getD_eq_getElem accs 0 hi
    rw [h]
    exact List.getElem_mem hi
  exact ⟨fun q => q.2, fun q => ⟨(hb _ hmem).1, q⟩⟩

/-- Witness for C1: a concrete run with accuracies `[1/2, 3/4, 1/4]`. -/
theorem train_checkpoint_policy_witness :
    ((checkpointSaves 0 [1/2, 3/4, 1/4]).getD 2 false = true) ↔
      (∀ j, j < 2 →
        ([(1 : ℚ)/2, 3/4, 1/4]).getD j 0 ≤ ([(1 : ℚ)/2, 3/4, 1/4]).getD 2 0) :=
  train_checkpoint_policy [1/2, 3/4, 1/4]
    (by intro a ha; fin_cases ha <;> norm_num) 2 (by norm_num)

/-- The oracle data one training step of `Dan.train` consumes: `accEntries`
is the list `[1 if pre_y[i] == y[i] else 0 for i in range(len(y))]` the batch
contributes to the running accuracy accumulator (line 195); `lossLabel`,
`lossDomain`, `lossVae` are the per-head losses returned by the framework's
loss modules for this batch (lines 182-183 and the model's VAE loss); `valAcc`
is the validation accuracy `test_accuracy_avg` the validation pass computes
when it runs at this step (line 239). -/
structure TrainBatch where
  accEntries : List ℚ
  lossLabel : ℚ
  lossDomain : ℚ
  lossVae : ℚ
  valAcc : ℚ

/-- One line of the periodic validation report printed at line 248, together
with the checkpoint decision made right after it. -/
structure ValReport where
  epoch : ℕ
  step : ℕ
  trainAcc : ℚ
  trainLoss : ℚ
  valAcc : ℚ
  saved : Bool

/-- The mutable state of the training loop of `Dan.train`: the running
accumulators `acc` and `loss` (lines 148-149, cleared at lines 251-252),
the ghost trace `backprops` of every value on which `loss_total.backward()`
is invoked (line 190), `last_test_accuracy` (line 165) and the reports
emitted so far. -/
structure TrainState where
  acc : List ℚ
  loss : List ℚ
  backprops : List ℚ
  last_test_accuracy : ℚ
  reports : List ValReport

/-- The state `Dan.train` starts from: empty accumulators and
`last_test_accuracy = 0`. -/
def initTrainState : TrainState := ⟨[], [], [], 0, []⟩

/-- The combined training objective of run_model.py lines 184-187: with the
`vae` encoder the back-propagated loss is `(loss_label + loss_domain +
loss_vae) / 3`, otherwise `0.4 * loss_label + 0.6 * loss_domain`. -/
def totalLoss (encoder_name : String) (loss_label loss_domain loss_vae : ℚ) : ℚ :=
  if encoder_name = "vae" then (loss_label + loss_domain + loss_vae) / 3
  else 0.4 * loss_label + 0.6 * loss_domain

/-- One iteration of the inner loop of `Dan.train` (lines 169-258): the batch
loss is blended and back-propagated, the accuracy entries and the total loss
are appended to the accumulators, and when `step % 50 == 0` the validation
pass runs, a report is printed with the accumulator averages, the
accumulators are cleared and the checkpoint decision of lines 253-257 is
taken. -/
def trainStep (encoder_name : String) (epoch step : ℕ) (b : TrainBatch)
    (s : TrainState) : TrainState :=
  let loss_total := totalLoss encoder_name b.lossLabel b.lossDomain b.lossVae
  let acc := s.acc ++ b.accEntries
  let loss := s.loss ++ [loss_total]
  let backprops := s.backprops ++ [loss_total]
  if step % 50 = 0 then
    let accuracy_avg := acc.sum / (acc.length : ℚ)
    let loss_avg := loss.sum / (loss.length : ℚ)
    let save := checkpointStep s.last_test_accuracy b.valAcc
    { acc := [], loss := [], backprops := backprops,
      last_test_accuracy := save.2,
      reports := s.reports ++ [⟨epoch, step, accuracy_avg, loss_avg, b.valAcc, save.1⟩] }
  else
    { acc := acc, loss := loss, backprops := backprops,
      last_test_accuracy := s.last_test_accuracy, reports := s.reports }

/-- The steps of one epoch: `for step, batch in enumerate(train_data_loader)`
starting at step index `i` (the full epoch starts at `i = 0`). -/
def runSteps (encoder_name : String) (epoch : ℕ) : ℕ → List TrainBatch → TrainState → TrainState
  | _, [], s => s
  | i, b :: rest, s => runSteps encoder_name epoch (i + 1) rest (trainStep encoder_name epoch i b s)

/-- The outer epoch loop of `Dan.train` (line 167), epoch index threaded. -/
def runEpochsFrom (encoder_name : String) : ℕ → List (List TrainBatch) → TrainState → TrainState
  | _, [], s => s
  | e, bs :: rest, s => runEpochsFrom encoder_name (e + 1) rest (runSteps encoder_name e 0 bs s)

/-- A whole `Dan.train` run over the given per-epoch batch oracles. -/
def train (encoder_name : String) (epochs : List (List TrainBatch)) : TrainState :=
  runEpochsFrom encoder_name 0 epochs initTrainState

theorem trainStep_backprops (encoder_name : String) (epoch i : ℕ)
    (b : TrainBatch) (s : TrainState) :
    (trainStep encoder_name epoch i b s).backprops =
      s.backprops ++ [totalLoss encoder_name b.lossLabel b.lossDomain b.lossVae] := by
  by_cases h : i % 50 = 0 <;> simp [trainStep, h]

theorem runSteps_backprops (encoder_name : String) (epoch : ℕ)
    (bs : List TrainBatch) :
    ∀ (i : ℕ) (s : TrainState),
      (runSteps encoder_name epoch i bs s).backprops =
        s.backprops ++ bs.map (fun b =>
          totalLoss encoder_name b.lossLabel b.lossDomain b.lossVae) := by
  induction bs with
  | nil => intro i s; simp [runSteps]
  | cons b rest ih =>
    intro i s
    simp only [runSteps, ih, trainStep_backprops, List.map_cons]
    simp [List.append_assoc]

/-- C3: in `Dan.train` the value handed to `loss_total.backward()` for every
training batch is `(loss_label + loss_domain + loss_vae) / 3` when the
encoder is `vae` and `0.4 * loss_label + 0.6 * loss_domain` otherwise
(run_model.py lines 184-190), at every step of every epoch of a whole run. -/
theorem train_loss_blend (encoder_name : String) (epoch i : ℕ)
    (b : TrainBatch) (s : TrainState) (bs : List TrainBatch) :
    (trainStep encoder_name epoch i b s).backprops =
      s.backprops ++ [if encoder_name = "vae"
        then (b.lossLabel + b.lossDomain + b.lossVae) / 3
        else 0.4 * b.lossLabel + 0.6 * b.lossDomain] ∧
    (runSteps encoder_name epoch i bs s).backprops =
      s.backprops ++ bs.map (fun bb =>
        if encoder_name = "vae"
        then (bb.lossLabel + bb.lossDomain + bb.lossVae) / 3
        else 0.4 * bb.lossLabel + 0.6 * bb.lossDomain) := by
  constructor
  · rw [trainStep_backprops]; rfl
  · rw [runSteps_backprops]; rfl

theorem trainStep_reports_step_map (encoder_name : String) (epoch i : ℕ)
    (b : TrainBatch) (s : TrainState) :
    ((trainStep encoder_name epoch i b s).reports).map ValReport.step =
      s.reports.map ValReport.step ++ (if i % 50 = 0 then [i] else []) := by
  by_cases h : i % 50 = 0 <;> simp [trainStep, h]

theorem runSteps_report_steps (encoder_name : String) (epoch : ℕ)
    (bs : List TrainBatch) :
    ∀ (i : ℕ) (s : TrainState),
      ((runSteps encoder_name epoch i bs s).reports).map ValReport.step =
        s.reports.map ValReport.step ++
          (List.range' i bs.length).filter (fun j => j % 50 = 0) := by
  induction bs with
  | nil => intro i s; simp [runSteps]
  | cons b rest ih =>
    intro i s
    simp only [runSteps, ih, trainStep_reports_step_map, List.length_cons,
      List.range', List.filter_cons]
    by_cases h : i % 50 = 0 <;> simp [h, List.append_assoc]

/-- C8: validation in `Dan.train` is periodic.  First conjunct: over a whole
epoch the validation reports are produced exactly at the steps whose index is
a multiple of 50, step 0 included (the `if step % 50 == 0` guard at line
197).  Remaining conjuncts: at a validation step the report averages the
accuracy and loss accumulators as extended by the current batch, and both
accumulators are cleared afterwards (lines 239-252), while at any other step
the accumulators only grow and no report is produced — so each report
averages exactly the steps since the previous report. -/
theorem train_validation_periodic :
    (∀ (encoder_name : String) (epoch : ℕ) (bs : List TrainBatch) (s : TrainState),
        ((runSteps encoder_name epoch 0 bs s).reports).map ValReport.step =
          s.reports.map ValReport.step ++
            (List.range bs.length).filter (fun j => j % 50 = 0)) ∧
    (∀ (encoder_name : String) (epoch i : ℕ) (b : TrainBatch) (s : TrainState),
        (trainStep encoder_name epoch i b s).acc =
          (if i % 50 = 0 then [] else s.acc ++ b.accEntries) ∧
        (trainStep encoder_name epoch i b s).loss =
          (if i % 50 = 0 then []
           else s.loss ++ [totalLoss encoder_name b.lossLabel b.lossDomain b.lossVae]) ∧
        (trainStep encoder_name epoch i b s).reports =
          (if i % 50 = 0 then
             s.reports ++
               [⟨epoch, i,
                 (s.acc ++ b.accEntries).sum / ((s.acc ++ b.accEntries).length : ℚ),
                 (s.loss ++ [totalLoss encoder_name b.lossLabel b.lossDomain b.lossVae]).sum /
                   (((s.loss ++ [totalLoss encoder_name b.lossLabel b.lossDomain b.lossVae]).length : ℕ) : ℚ),
                 b.valAcc,
                 (checkpointStep s.last_test_accuracy b.valAcc).1⟩]
           else s.reports)) := by
  constructor
  · intro encoder_name epoch bs s
    rw [runSteps_report_steps, List.range_eq_range']
  · intro encoder_name epoch i b s
    refine ⟨?_, ?_, ?_⟩ <;> by_cases h : i % 50 = 0 <;> simp [trainStep, h]

/-- The length bucket key of `Dan.segment_statistic` (run_model.py line 296):
`int(length[i] // 500)`, Python floor division, i.e. `Int.fdiv`. -/
def bucketOf (l : ℤ) : ℤ := Int.fdiv l 500

/-- `Dan.segment_statistic` (run_model.py lines 286-298): for each index the
entry `1` (when `prey[i] == y[i]`) or `0` is appended to the bucket
`int(length[i] // 500)` of `self.result`, a `defaultdict(list)` modelled as a
total map from bucket keys to entry lists. -/
def segment_statistic : List ℤ → List ℤ → List ℤ → (ℤ → List ℕ) → ℤ → List ℕ
  | p :: prest, t :: trest, l :: lrest, result =>
      segment_statistic prest trest lrest
        (fun k => if k = bucketOf l then result k ++ [if p = t then 1 else 0] else result k)
  | _, _, _, result => result

/-- C5: after `Dan.segment_statistic(prey, y, length)`, every bucket `k` of
`self.result` holds its previous entries followed by, in input order, one
entry per index `i` whose length bucket `floor(length[i] / 500)` is `k` —
the entry being `1` when `prey[i] = y[i]` and `0` otherwise.  Buckets no
index maps to are untouched, and each index contributes exactly one entry,
to its own bucket. -/
theorem segment_statistic_buckets (prey y len_ : List ℤ)
    (result : ℤ → List ℕ) (k : ℤ) :
    segment_statistic prey y len_ result k =
      result k ++
        ((prey.zip (y.zip len_)).filter (fun q => bucketOf q.2.2 = k)).map
          (fun q => if q.1 = q.2.1 then 1 else 0) := by
  induction prey generalizing y len_ result with
  | nil => simp [segment_statistic]
  | cons p prest ih =>
    cases y with
    | nil => simp [segment_statistic]
    | cons t trest =>
      cases len_ with
      | nil => simp [segment_statistic]
      | cons l lrest =>
        show segment_statistic prest trest lrest _ k = _
        rw [ih]
        simp only [List.zip_cons_cons, List.filter_cons]
        by_cases h : bucketOf l = k
        · simp [h, List.append_assoc]
        · have h' : ¬ (k = bucketOf l) := fun hk => h hk.symm
          simp [h, h']

/-- Modelled from the POSIX `os.path.join` of Python's standard library, for
the two-argument calls this file makes: an absolute second component replaces
the first, otherwise a `/` separator is inserted unless the first component
is empty or already ends in `/`. -/
def os_path_join (a b : String) : String :=
  if b.data.head? = some '/' then b
  else if a = "" ∨ a.data.getLast? = some '/' then a ++ b
  else a ++ "/" ++ b

/-- `Dan.save_attention_matrix` (run_model.py lines 456-476): iterating over
the batch dimension of the attention tensor, the per-sample slice
`attention_matrix[i]` is written to `save_dir/<ids[i]>.npy` exactly when
`result[i] == 1`; the function returns `True`.  The pair returned here is
(list of files written with their contents, the returned `True` value). -/
def save_attention_matrix {α : Type} :
    List α → List String → List ℕ → String → List (String × α) × Bool
  | a :: arest, n :: nrest, r :: rrest, save_dir =>
      let rest := save_attention_matrix arest nrest rrest save_dir
      (if r = 1 then (os_path_join save_dir (n ++ ".npy"), a) :: rest.1 else rest.1,
       rest.2)
  | _, _, _, _ => ([], true)

theorem save_attention_matrix_writes {α : Type} (att : List α)
    (ids : List String) (res : List ℕ) (save_dir : String) :
    save_attention_matrix att ids res save_dir =
      (((att.zip (ids.zip res)).filter (fun q => q.2.2 = 1)).map
          (fun q => (os_path_join save_dir (q.2.1 ++ ".npy"), q.1)),
       true) := by
  induction att generalizing ids res with
  | nil => simp [save_attention_matrix]
  | cons a arest ih =>
    cases ids with
    | nil => simp [save_attention_matrix]
    | cons n nrest =>
      cases res with
      | nil => simp [save_attention_matrix]
      | cons r rrest =>
        show (if r = 1 then _ :: (save_attention_matrix arest nrest rrest save_dir).1
              else (save_attention_matrix arest nrest rrest save_dir).1,
              (save_attention_matrix arest nrest rrest save_dir).2) = _
        rw [ih]
        by_cases h : r = 1 <;> simp [h]

/-- The index of the (first) greatest entry of a logit row: the behaviour of
`torch.max(label_output, 1)[1]` on one row. -/
def argmaxIdx (xs : List ℚ) : ℕ :=
  (List.range xs.length).foldl
    (fun best i => if xs.getD best 0 < xs.getD i 0 then i else best) 0

/-- The body of the test loop of `Dan.test_attention` (run_model.py lines
485-499) on one batch: the model's output is the pair (label logits,
attention tensor); `prey` is the row-wise argmax of the logits (`torch.max(
label_output, 1)[1]`), `tmp` the per-sample correctness list, the batch loss
is `CrossEntropyLoss()(label_output, label)` — an external torch module,
taken as the oracle `lossFn` applied to the logits and labels — and the
attention slices of the correctly predicted samples are written out.
Returns (`tmp`, batch loss, files written). -/
def test_attention_step {α : Type} (lossFn : List (List ℚ) → List ℕ → ℚ)
    (labelOutput : List (List ℚ)) (attention : List α) (labels : List ℕ)
    (ids : List String) (save_dir : String) :
    List ℕ × ℚ × List (String × α) :=
  let prey := labelOutput.map argmaxIdx
  let tmp := (prey.zip labels).map (fun q => if q.1 = q.2 then 1 else 0)
  (tmp, lossFn labelOutput labels,
   (save_attention_matrix attention ids tmp save_dir).1)

/-- C6: the attention tensor is extracted for inspection only.  First
conjunct: in `Dan.test_attention` neither the correctness entries (hence the
predictions and the accuracy computed from them) nor the batch loss depend on
the attention tensor — replacing it by any other tensor leaves both
unchanged.  Second conjunct: `Dan.save_attention_matrix` writes
`save_dir/<id>.npy` exactly for the samples whose `result` entry is 1, and
returns `True`. -/
theorem attention_extraction_post_hoc :
    (∀ (α : Type) (lossFn : List (List ℚ) → List ℕ → ℚ)
        (labelOutput : List (List ℚ)) (att att' : List α) (labels : List ℕ)
        (ids : List String) (save_dir : String),
        (test_attention_step lossFn labelOutput att labels ids save_dir).1 =
          (test_attention_step lossFn labelOutput att' labels ids save_dir).1 ∧
        (test_attention_step lossFn labelOutput att labels ids save_dir).2.1 =
          (test_attention_step lossFn labelOutput att' labels ids save_dir).2.1) ∧
    (∀ (α : Type) (att : List α) (ids : List String) (res : List ℕ)
        (save_dir : String),
        (save_attention_matrix att ids res save_dir).2 = true ∧
        (save_attention_matrix att ids res save_dir).1 =
          ((att.zip (ids.zip res)).filter (fun q => q.2.2 = 1)).map
            (fun q => (os_path_join save_dir (q.2.1 ++ ".npy"), q.1))) := by
  constructor
  · intro α lossFn labelOutput att att' labels ids save_dir
    exact ⟨rfl, rfl⟩
  · intro α att ids res save_dir
    rw [save_attention_matrix_writes]
    exact ⟨rfl, rfl⟩

/-- The metric backend of `Dan.evaluation`: the `IndicatorCalculation` class
of `util.util_file` (an external collaborator of run_model.py, outside this
file), as the driver uses it — four metrics computed from the thresholded
predictions and the ground truth, and an AUC computed from the raw
probabilities and the ground truth. -/
structure IndicatorBackend where
  get_accuracy : List ℕ → List ℕ → ℚ
  get_precision : List ℕ → List ℕ → ℚ
  get_recall : List ℕ → List ℕ → ℚ
  get_f1score : List ℕ → List ℕ → ℚ
  get_auc : List ℚ → List ℕ → ℚ

/-- The hard predictions of `Dan.evaluation` (run_model.py line 346):
`prey = [1 if x > 0.5 else 0 for x in probability]`. -/
def evaluation_prey (probability : List ℚ) : List ℕ :=
  probability.map (fun x => if x > (0.5 : ℚ) then 1 else 0)

/-- `Dan.evaluation` (run_model.py lines 338-353), the returned dictionary as
an association list in insertion order: every one of the five metrics is
computed by the `IndicatorCalculation` backend, the first four from the
thresholded predictions `prey` and `y`, the AUC from the raw probabilities
and `y`. -/
def evaluation (cal : IndicatorBackend) (probability : List ℚ) (y : List ℕ) :
    List (String × ℚ) :=
  let prey := evaluation_prey probability
  [("accuracy", cal.get_accuracy prey y),
   ("precision", cal.get_precision prey y),
   ("recall", cal.get_recall prey y),
   ("f1score", cal.get_f1score prey y),
   ("auc", cal.get_auc probability y)]

theorem evaluation_prey_getD (probability : List ℚ) :
    ∀ i : ℕ, (evaluation_prey probability).getD i 0 =
      if probability.getD i 0 > (0.5 : ℚ) then 1 else 0 := by
  induction probability with
  | nil =>
    intro i
    simp [evaluation_prey]
    norm_num
  | cons x rest ih =>
    intro i
    cases i with
    | zero => simp [evaluation_prey]
    | succ i => simpa [evaluation_prey] using ih i

/-- C7: `Dan.evaluation` returns a dictionary whose keys are exactly
`accuracy`, `precision`, `recall`, `f1score`, `auc`; the first four metrics
are computed from the thresholded predictions (entry `i` is 1 iff
`probability[i] > 0.5`, else 0), and the AUC from the raw probabilities. -/
theorem evaluation_keys_threshold_auc :
    (∀ (cal : IndicatorBackend) (probability : List ℚ) (y : List ℕ),
        (evaluation cal probability y).map Prod.fst =
          ["accuracy", "precision", "recall", "f1score", "auc"]) ∧
    (∀ (cal : IndicatorBackend) (probability : List ℚ) (y : List ℕ),
        evaluation cal probability y =
          [("accuracy", cal.get_accuracy (evaluation_prey probability) y),
           ("precision", cal.get_precision (evaluation_prey probability) y),
           ("recall", cal.get_recall (evaluation_prey probability) y),
           ("f1score", cal.get_f1score (evaluation_prey probability) y),
           ("auc", cal.get_auc probability y)]) ∧
    (∀ (probability : List ℚ) (i : ℕ),
        (evaluation_prey probability).getD i 0 =
          if probability.getD i 0 > (0.5 : ℚ) then 1 else 0) := by
  refine ⟨fun cal probability y => rfl, fun cal probability y => rfl, ?_⟩
  intro probability i
  exact evaluation_prey_getD probability i

/-- The checkpoint file name `save_mode` builds at run_model.py lines 55-57:
`'DAN_encoder_{}_{}_{}.pkl'.format(encoder_name, label_classifier_name,
patient)`. -/
def save_model_filename (e lc p : String) : String :=
  "DAN_encoder_" ++ e ++ "_" ++ lc ++ "_" ++ p ++ ".pkl"

/-- The full path `Dan.save_mode` writes to with its default
`save_path='../save_model'` argument (run_model.py lines 52-58):
`os.path.join(save_path, 'DAN_encoder_{}_{}_{}.pkl'.format(...))`. -/
def save_mode_path (e lc p : String) : String :=
  os_path_join "../save_model" (save_model_filename e lc p)

/-- The path `Dan.load_model` reads from with its default argument
(run_model.py lines 62-63):
`'../save_model/DAN_encoder_{}_{}_{}.pkl'.format(encoder_name,
label_classifier_name, patient)`. -/
def load_model_path (e lc p : String) : String :=
  "../save_model/DAN_encoder_" ++ e ++ "_" ++ lc ++ "_" ++ p ++ ".pkl"

/-- `Dan.load_model` (run_model.py lines 62-69) over a filesystem modelled as
a map from paths to stored model states: when the checkpoint file exists its
state is loaded into the model, otherwise a log message is printed and the
in-memory model is left untouched; no exception escapes in either case.
Returns (the model state after the call, the printed message). -/
def load_model {σ : Type} (fs : String → Option σ) (current : σ)
    (e lc p : String) : σ × String :=
  match fs (load_model_path e lc p) with
  | some st => (st, "Loading Mode DAN from " ++ load_model_path e lc p)
  | none => (current, "Model is not exist in " ++ load_model_path e lc p)

/-- The model `Dan.test` evaluates with: `test` begins by calling
`self.load_model()` (run_model.py line 361) and then uses whatever model
state that call leaves in memory. -/
def test_model {σ : Type} (fs : String → Option σ) (current : σ)
    (e lc p : String) : σ :=
  (load_model fs current e lc p).1

/-- C4: when the checkpoint file at `load_model`'s computed path is missing,
the call returns normally with the log message and the model parameters
unchanged — so `Dan.test` then runs with the untrained in-memory model — and
when the file exists its stored state is loaded. -/
theorem load_model_missing_file {σ : Type} (fs : String → Option σ)
    (current : σ) (e lc p : String) :
    (fs (load_model_path e lc p) = none →
      load_model fs current e lc p =
        (current, "Model is not exist in " ++ load_model_path e lc p) ∧
      test_model fs current e lc p = current) ∧
    (∀ st, fs (load_model_path e lc p) = some st →
      load_model fs current e lc p =
        (st, "Loading Mode DAN from " ++ load_model_path e lc p)) := by
  constructor
  · intro h
    constructor <;> simp [load_model, test_model, h]
  · intro st h
    simp [load_model, h]

/-- C10: for every encoder name, label classifier name and patient the path
`Dan.save_mode` writes with its default `save_path` is exactly the path
`Dan.load_model` reads with its default `model_path`, so a save/load
round-trip on the defaults addresses one and the same file. -/
theorem save_load_path_roundtrip (e lc p : String) :
    save_mode_path e lc p = load_model_path e lc p := by
  unfold save_mode_path os_path_join save_model_filename load_model_path
  have h1 : ("DAN_encoder_" ++ e ++ "_" ++ lc ++ "_" ++ p ++ ".pkl").data.head? =
      some 'D' := by
    simp [String.data_append]
  have hne : ¬ (("DAN_encoder_" ++ e ++ "_" ++ lc ++ "_" ++ p ++ ".pkl").data.head? =
      some '/') := by
    rw [h1]; simp
  rw [if_neg hne]
  have hc : ¬ (("../save_model" : String) = "" ∨
      "../save_model".data.getLast? = some '/') := by decide
  rw [if_neg hc]
  have hm : ("../save_model" ++ "/" : String) = "../save_model/" := by decide
  have hm2 : ("../save_model/" ++ "DAN_encoder_" : String) =
      "../save_model/DAN_encoder_" := by decide
  rw [hm]
  simp only [← String.append_assoc]
  rw [hm2]

/-- `np.mean` over the rationals standing in for floats. -/
def np_mean (xs : List ℚ) : ℚ := xs.sum / (xs.length : ℚ)

/-- The square of `np.std` (population standard deviation, `ddof = 0`): the
mean squared deviation from the mean.  The value run_model.py line 316
reports is the real square root of this rational; the square is kept so the
embedding stays within executable rational arithmetic. -/
def np_variance (xs : List ℚ) : ℚ :=
  ((xs.map (fun x => (x - np_mean xs) ^ 2)).sum) / (xs.length : ℚ)

/-- The slice `p[j * batch_size : (j + 1) * batch_size]` of one bucket's
entry list in `Dan.save_segment_statistic_info` (run_model.py line 313),
with `batch_size = len(p) // 5`. -/
def group_slice (p : List ℕ) (j : ℕ) : List ℕ :=
  (p.drop (j * (p.length / 5))).take (p.length / 5)

/-- `sum(tmp) / len(tmp)` for the `j`-th group (run_model.py line 314):
Python raises `ZeroDivisionError` when the slice is empty. -/
def slice_avg (p : List ℕ) (j : ℕ) : Except String ℚ :=
  let tmp := group_slice p j
  if tmp.length = 0 then Except.error "ZeroDivisionError: division by zero"
  else Except.ok ((tmp.sum : ℚ) / (tmp.length : ℚ))

/-- A Python `for` loop that appends `f a` for each element and lets the
first raised exception escape. -/
def except_map_list {α β : Type} (f : α → Except String β) :
    List α → Except String (List β)
  | [] => Except.ok []
  | a :: rest =>
      match f a with
      | Except.error msg => Except.error msg
      | Except.ok b =>
          match except_map_list f rest with
          | Except.error msg => Except.error msg
          | Except.ok bs => Except.ok (b :: bs)

/-- The inner loop of `Dan.save_segment_statistic_info` for one bucket
(run_model.py lines 310-314): the five per-group accuracies `acc_ep`, or the
`ZeroDivisionError` Python raises at the first empty group. -/
def bucket_group_accs (p : List ℕ) : Except String (List ℚ) :=
  except_map_list (slice_avg p) (List.range 5)

/-- The row `Dan.save_segment_statistic_info` produces for one bucket when no
exception is raised: (bucket key `w`, `np.mean(acc_ep)`, squared
`np.std(acc_ep)`), lines 315-319. -/
def bucket_row (kp : ℤ × List ℕ) : ℤ × ℚ × ℚ :=
  (kp.1,
   np_mean ((List.range 5).map
     (fun j => ((group_slice kp.2 j).sum : ℚ) / ((kp.2.length / 5 : ℕ) : ℚ))),
   np_variance ((List.range 5).map
     (fun j => ((group_slice kp.2 j).sum : ℚ) / ((kp.2.length / 5 : ℕ) : ℚ))))

/-- `Dan.save_segment_statistic_info` (run_model.py lines 300-324) over
`self.result` as an association list of (bucket key, entry list): one output
row per bucket, or the exception the first failing bucket raises. -/
def save_segment_statistic_info (result : List (ℤ × List ℕ)) :
    Except String (List (ℤ × ℚ × ℚ)) :=
  except_map_list
    (fun kp =>
      match bucket_group_accs kp.2 with
      | Except.error msg => Except.error msg
      | Except.ok accs => Except.ok (kp.1, np_mean accs, np_variance accs))
    result

theorem except_map_list_ok_iff {α β : Type} (f : α → Except String β)
    (l : List α) :
    (∃ out, except_map_list f l = Except.ok out) ↔
      ∀ a ∈ l, ∃ b, f a = Except.ok b := by
  induction l with
  | nil => simp [except_map_list]
  | cons a rest ih =>
    constructor
    · rintro ⟨out, hout⟩
      intro x hx
      rw [except_map_list] at hout
      cases hfa : f a with
      | error msg => rw [hfa] at hout; simp at hout
      | ok b =>
        rw [hfa] at hout
        cases hrest : except_map_list f rest with
        | error msg => rw [hrest] at hout; simp at hout
        | ok bs =>
          rcases List.mem_cons.1 hx with h | h
          · exact ⟨b, h ▸ hfa⟩
          · exact (ih.1 ⟨bs, hrest⟩) x h
    · intro h
      obtain ⟨b, hb⟩ := h a (List.mem_cons_self a rest)
      obtain ⟨bs, hbs⟩ := ih.2 (fun x hx => h x (List.mem_cons_of_mem a hx))
      exact ⟨b :: bs, by rw [except_map_list, hb, hbs]⟩

theorem group_slice_length (p : List ℕ) (h5 : 5 ≤ p.length)
    (j : ℕ) (hj : j < 5) :
    (group_slice p j).length = p.length / 5 := by
  have h1 : p.length / 5 * 5 ≤ p.length := Nat.div_mul_le_self _ _
  have h2 : j * (p.length / 5) + p.length / 5 ≤ p.length := by
    have h3 : (j + 1) * (p.length / 5) ≤ 5 * (p.length / 5) :=
      Nat.mul_le_mul_right _ (by omega)
    calc j * (p.length / 5) + p.length / 5
        = (j + 1) * (p.length / 5) := by ring
      _ ≤ 5 * (p.length / 5) := h3
      _ = p.length / 5 * 5 := Nat.mul_comm _ _
      _ ≤ p.length := h1
  simp only [group_slice, List.length_take, List.length_drop]
  set q := j * (p.length / 5) with hq
  omega

theorem bucket_group_accs_small (p : List ℕ) (h : p.length < 5) :
    bucket_group_accs p = Except.error "ZeroDivisionError: division by zero" := by
  have hbs : p.length / 5 = 0 := Nat.div_eq_of_lt h
  have hrange : List.range 5 = [0, 1, 2, 3, 4] := rfl
  rw [bucket_group_accs, hrange, except_map_list]
  have h0 : slice_avg p 0 = Except.error "ZeroDivisionError: division by zero" := by
    simp [slice_avg, group_slice, hbs]
  rw [h0]

theorem bucket_group_accs_ok (p : List ℕ) (h5 : 5 ≤ p.length) :
    bucket_group_accs p = Except.ok ((List.range 5).map
      (fun j => ((group_slice p j).sum : ℚ) / ((p.length / 5 : ℕ) : ℚ))) := by
  have hbs : 1 ≤ p.length / 5 := (Nat.le_div_iff_mul_le (by norm_num)).2 (by omega)
  have hrange : List.range 5 = [0, 1, 2, 3, 4] := rfl
  have he : ∀ j, j < 5 → slice_avg p j =
      Except.ok (((group_slice p j).sum : ℚ) / ((p.length / 5 : ℕ) : ℚ)) := by
    intro j hj
    have h := group_slice_length p h5 j hj
    simp [slice_avg, h]
    omega
  rw [bucket_group_accs, hrange]
  rw [except_map_list, he 0 (by norm_num)]
  rw [except_map_list, he 1 (by norm_num)]
  rw [except_map_list, he 2 (by norm_num)]
  rw [except_map_list, he 3 (by norm_num)]
  rw [except_map_list, he 4 (by norm_num)]
  rw [except_map_list]
  simp [hrange]

theorem group_slice_flatten (p : List ℕ) :
    ((List.range 5).map (group_slice p)).flatten = p.take (5 * (p.length / 5)) := by
  have hrange : List.range 5 = [0, 1, 2, 3, 4] := rfl
  rw [hrange]
  rw [show 5 * (p.length / 5) =
      p.length / 5 + (p.length / 5 + (p.length / 5 + (p.length / 5 + p.length / 5)))
    from by ring]
  rw [List.take_add, List.take_add, List.take_add, List.take_add]
  simp [group_slice, List.drop_drop]
  ring_nf

theorem save_segment_statistic_info_ok (result : List (ℤ × List ℕ))
    (h : ∀ kp ∈ result, 5 ≤ kp.2.length) :
    save_segment_statistic_info result = Except.ok (result.map bucket_row) := by
  induction result with
  | nil => simp [save_segment_statistic_info, except_map_list]
  | cons kp rest ih =>
    have hkp : 5 ≤ kp.2.length := h kp (List.mem_cons_self kp rest)
    have hrest := ih (fun x hx => h x (List.mem_cons_of_mem kp hx))
    rw [save_segment_statistic_info, except_map_list,
      bucket_group_accs_ok kp.2 hkp]
    rw [save_segment_statistic_info] at hrest
    rw [hrest]
    rfl

/-- C9: in `Dan.save_segment_statistic_info`, (i) a bucket with fewer than 5
entries makes the first group slice empty and raises `ZeroDivisionError`;
(ii) a bucket with at least 5 entries yields the five group accuracies, each
group holding exactly `len(p) // 5` entries; (iii) the five groups together
cover exactly the first `5 * (len(p) // 5)` entries, the trailing
`len(p) mod 5` entries being excluded; (iv) the whole call succeeds iff every
bucket has at least 5 entries; and (v) on success each bucket's row reports
the mean of its per-group accuracies (and the spread of those same five
values, kept here as the squared standard deviation). -/
theorem save_segment_statistic_grouping :
    (∀ p : List ℕ, p.length < 5 →
        bucket_group_accs p = Except.error "ZeroDivisionError: division by zero") ∧
    (∀ p : List ℕ, 5 ≤ p.length →
        bucket_group_accs p = Except.ok ((List.range 5).map
          (fun j => ((group_slice p j).sum : ℚ) / ((p.length / 5 : ℕ) : ℚ))) ∧
        (∀ j, j < 5 → (group_slice p j).length = p.length / 5)) ∧
    (∀ p : List ℕ,
        ((List.range 5).map (group_slice p)).flatten = p.take (5 * (p.length / 5))) ∧
    (∀ result : List (ℤ × List ℕ),
        (∃ out, save_segment_statistic_info result = Except.ok out) ↔
          ∀ kp ∈ result, 5 ≤ kp.2.length) ∧
    (∀ result : List (ℤ × List ℕ), (∀ kp ∈ result, 5 ≤ kp.2.length) →
        save_segment_statistic_info result = Except.ok (result.map bucket_row)) := by
  refine ⟨bucket_group_accs_small, ?_, group_slice_flatten, ?_, save_segment_statistic_info_ok⟩
  · intro p h5
    exact ⟨bucket_group_accs_ok p h5, group_slice_length p h5⟩
  · intro result
    rw [save_segment_statistic_info, except_map_list_ok_iff]
    constructor
    · intro h kp hkp
      obtain ⟨b, hb⟩ := h kp hkp
      by_contra hlt
      rw [bucket_group_accs_small kp.2 (by omega)] at hb
      simp at hb
    · intro h kp hkp
      rw [bucket_group_accs_ok kp.2 (h kp hkp)]
      exact ⟨_, rfl⟩

/-- A Python runtime value, as far as `len()` is concerned. -/
inductive PyVal where
  | intVal : ℤ → PyVal
  | floatVal : ℚ → PyVal
  | strVal : String → PyVal
  | listVal : List PyVal → PyVal

/-- Python's `len()`: defined on sequences, a `TypeError` on numbers. -/
def pyLen : PyVal → Except String ℕ
  | PyVal.listVal l => Except.ok l.length
  | PyVal.strVal s => Except.ok s.length
  | PyVal.intVal _ => Except.error "TypeError: object of type int has no len()"
  | PyVal.floatVal _ => Except.error "TypeError: object of type float has no len()"

/-- The accumulation loop of `Dan.prediction_real_data` (run_model.py lines
435-443) over the per-batch predicted labels `prey` (the model's argmax
output, an oracle input): each batch appends its predictions to
`prediction`, and then appends `[1 if x == label_int else 0 for x in
prediction]` — the comprehension runs over the WHOLE `prediction` list, as
the source does — to `probability`.  Returns (`prediction`, `probability`). -/
def prediction_real_data_loop (label_int : ℤ) (batches : List (List ℤ)) :
    List ℤ × List ℤ :=
  batches.foldl
    (fun st prey =>
      let prediction := st.1 ++ prey
      let probability := st.2 ++ prediction.map (fun x => if x = label_int then (1 : ℤ) else 0)
      (prediction, probability))
    ([], [])

/-- The tail of `Dan.prediction_real_data` (run_model.py lines 445-448):
`accuracy = sum(probability) / len(probability)` — a `ZeroDivisionError`
when no segment was produced — followed by the log line, whose format
arguments include `len(accuracy)` (line 447), `len()` of a Python float.
The `Except.ok` value would be the accuracy together with that length. -/
def prediction_real_data (label_int : ℤ) (batches : List (List ℤ)) :
    Except String (ℚ × ℕ) :=
  let probability := (prediction_real_data_loop label_int batches).2
  if probability.length = 0 then Except.error "ZeroDivisionError: division by zero"
  else
    let accuracy : ℚ := ((probability.sum : ℤ) : ℚ) / (probability.length : ℚ)
    match pyLen (PyVal.floatVal accuracy) with
    | Except.error msg => Except.error msg
    | Except.ok n => Except.ok (accuracy, n)

theorem prediction_real_data_loop_snd_ne_nil (label_int : ℤ)
    (batches : List (List ℤ)) :
    ∀ st : List ℤ × List ℤ, ((∃ b ∈ batches, b ≠ []) ∨ st.2 ≠ []) →
      (batches.foldl
        (fun st prey =>
          let prediction := st.1 ++ prey
          let probability := st.2 ++ prediction.map (fun x => if x = label_int then (1 : ℤ) else 0)
          (prediction, probability)) st).2 ≠ [] := by
  induction batches with
  | nil =>
    intro st h
    rcases h with h | h
    · simp at h
    · simpa using h
  | cons b rest ih =>
    intro st h
    rw [List.foldl_cons]
    apply ih
    rcases h with h | h
    · rcases h with ⟨x, hx, hxne⟩
      rcases List.mem_cons.1 hx with hx0 | hx0
      · right
        subst hx0
        simp only [ne_eq, List.append_eq_nil]
        intro hc
        rcases hc with ⟨h1, h2⟩
        rw [List.map_eq_nil_iff, List.append_eq_nil] at h2
        exact hxne h2.2
      · left
        exact ⟨x, hx0, hxne⟩
    · right
      simp only [ne_eq, List.append_eq_nil]
      intro hc
      exact h hc.1

/-- C2: `Dan.prediction_real_data` never completes.  First conjunct: no
input ever produces a normal result.  Second conjunct: whenever the file
yields at least one batch with at least one segment, the failure is the
`TypeError` raised by `len(accuracy)` in the log format call of line 447 —
the function crashes before writing the log line or the CSV rows the claim
describes.  (With no segment at all it instead raises `ZeroDivisionError`
at line 445.) -/
theorem prediction_real_data_always_raises (label_int : ℤ)
    (batches : List (List ℤ)) :
    (∀ v, prediction_real_data label_int batches ≠ Except.ok v) ∧
    ((∃ b ∈ batches, b ≠ []) →
      prediction_real_data label_int batches =
        Except.error "TypeError: object of type float has no len()") := by
  constructor
  · intro v
    rw [prediction_real_data]
    by_cases h : (prediction_real_data_loop label_int batches).2.length = 0 <;>
      simp [h, pyLen]
  · intro h
    have hne : (prediction_real_data_loop label_int batches).2 ≠ [] :=
      prediction_real_data_loop_snd_ne_nil label_int batches ([], []) (Or.inl h)
    have hlen : ¬ ((prediction_real_data_loop label_int batches).2.length = 0) := by
      simpa [List.length_eq_zero] using hne
    rw [prediction_real_data]
    simp [hlen, pyLen]

/-- Witness for C2 at a concrete input: one batch with two segments, label 1. -/
theorem prediction_real_data_always_raises_witness :
    prediction_real_data 1 [[1, 0]] =
      Except.error "TypeError: object of type float has no len()" :=
  (prediction_real_data_always_raises 1 [[1, 0]]).2
    ⟨[1, 0], List.mem_cons_self _ _, by simp⟩

end RunModel
